import Mathlib

/-!
Verification development for the `gamehappybackend` game server
(`src/GameServer.js`).

The JavaScript source is shallowly embedded: JS `Map` objects become
association lists with JS `Map` semantics (`mget`, `msetKV`, `mdel`),
the mutable `GameServer` instance becomes an explicit `ServerState`
threaded through each operation, `Math.random` becomes an explicit
oracle `rand : Nat → Nat`, and each `ws.send` / broadcast becomes an
entry of an output list `List (Nat × Msg)` (recipient connection id,
structured message).
-/

set_option maxHeartbeats 1000000

namespace GameHappy

/-- JS `Map.get`: value of the (unique) entry with the given key. -/
def mget [DecidableEq κ] : List (κ × α) → κ → Option α
  | [], _ => none
  | (k', v) :: rest, k => if k' = k then some v else mget rest k

/-- JS `Map.set`: replace the entry in place if the key is present,
otherwise append a new entry at the end (JS insertion order). -/
def msetKV [DecidableEq κ] : List (κ × α) → κ → α → List (κ × α)
  | [], k, v => [(k, v)]
  | (k', v') :: rest, k, v =>
      if k' = k then (k, v) :: rest else (k', v') :: msetKV rest k v

/-- JS `Map.delete`: remove the (unique) entry with the given key. -/
def mdel [DecidableEq κ] : List (κ × α) → κ → List (κ × α)
  | [], _ => []
  | (k', v) :: rest, k => if k' = k then rest else (k', v) :: mdel rest k

/-- Keys of an association list, in insertion order. -/
def mkeys (l : List (κ × α)) : List κ := l.map Prod.fst

/-! ## Data model (`GameServer.js` constructor state and record shapes) -/

/-- `game.settings` (`createGame`, lines 91-94). -/
structure Settings where
  eyeWitness : Bool
  bodyGuard : Bool
deriving DecidableEq

/-- A player record as built in `createGame`/`joinGame`.  The JS object
holds a live websocket in `connection`; the embedding keeps only whether
a send capability is present (it is never removed, only `connected` is
flipped by `onPlayerDisconnect`).  `alive` is never written anywhere in
the source, so it is `none` at creation and read through `?? true`. -/
structure Player where
  name : String
  isHost : Bool
  connection : Bool
  token : String
  connected : Bool
  alive : Option Bool
deriving DecidableEq

/-- A game room as built in `createGame` (lines 78-96); `round`,
`roles`, `readyStates` and `caseNotes` are absent (`none`) until
`startGame` assigns them. -/
structure Game where
  code : String
  host : Nat
  hostToken : String
  players : List (Nat × Player)
  settings : Settings
  status : String
  round : Option Nat
  roles : Option (List (Nat × String))
  readyStates : Option (List (Nat × Bool))
  caseNotes : Option (List String)
deriving DecidableEq

/-- The mutable fields of the `GameServer` instance (lines 4-9).
`clientConnectionMap` is owned by the transport layer and never read by
the game logic, so it is omitted. -/
structure ServerState where
  games : List (String × Game)
  playerConnections : List (Nat × String)
  playerTokens : List (String × String × Nat)
deriving DecidableEq

/-- One row of `getPlayerList` (lines 29-44). -/
structure PlayerInfo where
  id : Nat
  name : String
  connected : Bool
  alive : Bool
  isHost : Bool
deriving DecidableEq

/-- Outbound message catalog.  The static `description` object attached
to `roleAssigned` is a constant lookup (`getRoleDescriptions`) carrying
no state, so it is not modelled. -/
inductive Msg where
  | error (message : String)
  | gameCreated (gameCode : String) (players : List PlayerInfo) (isHost : Bool)
      (playerToken : String)
  | gameJoined (gameCode : String) (players : List PlayerInfo) (isHost : Bool)
      (playerToken : String)
  | playerListUpdate (players : List PlayerInfo)
  | roleAssigned (role : String) (teammates : List String)
      (playerCount readyCount totalPlayers : Nat)
  | readyUpdate (readyCount totalPlayers : Nat)
  | playerDisconnected (playerId : Nat) (playerName : String)
  | removedFromGame (message : String)
deriving DecidableEq

/-- Inbound fields used by `createGame` (`data.playerName`,
`data.eyeWitness`, `data.bodyGuard`, all possibly absent). -/
structure CreateData where
  playerName : Option String
  eyeWitness : Option Bool
  bodyGuard : Option Bool
deriving DecidableEq

/-- Inbound fields used by `joinGame`. -/
structure JoinData where
  playerName : Option String
  gameCode : Option String
deriving DecidableEq

/-- Inbound field used by `removePlayer`. -/
structure RemoveData where
  targetId : Option Nat
deriving DecidableEq

/-! ## String primitives

JS's `trim`/`toUpperCase`/`toLowerCase` are embedded structurally over
the character list (Lean core's `String.trim` is defined through
`Substring` byte positions, which the kernel cannot evaluate). -/

/-- JS `String.prototype.trim`: strip leading and trailing whitespace. -/
def jsTrim (s : String) : String :=
  String.mk (((s.data.dropWhile Char.isWhitespace).reverse.dropWhile
    Char.isWhitespace).reverse)

/-- JS `String.prototype.toUpperCase` (on the code points the game
server ever sees). -/
def jsToUpperCase (s : String) : String := String.mk (s.data.map Char.toUpper)

/-- JS `String.prototype.toLowerCase`. -/
def jsToLowerCase (s : String) : String := String.mk (s.data.map Char.toLower)

/-! ## Utilities (lines 13-60) -/

/-- The fixed alphabet of `generateGameCode` (line 14). -/
def characters : String := "ABCDEFGHJKLMNPQRSTUVWXYZ23456789"

/-- One 4-character candidate code; `rand k % characters.length` stands
for `Math.floor(Math.random() * characters.length)` (lines 17-20). -/
def makeCode (rand : Nat → Nat) (offset : Nat) : String :=
  String.mk ((List.range 4).map
    (fun i => characters.data.getD (rand (offset + i) % characters.length) 'A'))

/-- `generateGameCode` (lines 13-23).  The JS `do … while` retries until
the candidate is unused; the embedding makes the retry count explicit as
fuel, `none` standing for a run that never found a free code. -/
def generateGameCode (rand : Nat → Nat) (games : List (String × Game)) :
    Nat → Option String
  | 0 => none
  | fuel + 1 =>
      let code := makeCode rand (4 * fuel)
      if (mget games code).isSome then generateGameCode rand games fuel
      else some code

/-- `getPlayerList` (lines 29-44): project the room roster, with the JS
`?? true` default on the never-written `alive` field. -/
def getPlayerList (s : ServerState) (gameCode : String) : List PlayerInfo :=
  match mget s.games gameCode with
  | none => []
  | some game =>
      game.players.map (fun q =>
        { id := q.1, name := q.2.name, connected := q.2.connected,
          alive := q.2.alive.getD true, isHost := q.2.isHost })

/-- `broadcastToGame` (lines 46-60), structured view: the pairs
(recipient, message) the loop attempts to deliver.  A player is
attempted iff `player.connection && player.connected !== false`. -/
def broadcastToGame (s : ServerState) (gameCode : String) (m : Msg) :
    List (Nat × Msg) :=
  match mget s.games gameCode with
  | none => []
  | some game =>
      game.players.filterMap (fun q =>
        if q.2.connection && q.2.connected then some (q.1, m) else none)

/-- `broadcastToGame` (lines 46-60), delivery view for the broadcast
contract: `ser` is `JSON.stringify` (applied once, before the loop),
`fail` says which recipient's `send` throws, and each list entry is one
attempt (recipient, serialized payload, success).  The `try`/`catch`
around each `send` is what lets the loop go on past a failure, which is
why the attempt list does not depend on `fail`. -/
def sendAttempts (messageStr : String) (fail : Nat → Bool)
    (players : List (Nat × Player)) : List (Nat × String × Bool) :=
  players.filterMap (fun q =>
    if q.2.connection && q.2.connected then
      some (q.1, messageStr, !fail q.1)
    else none)

def broadcastToGameSer (ser : Msg → String) (fail : Nat → Bool)
    (s : ServerState) (gameCode : String) (m : Msg) :
    List (Nat × String × Bool) :=
  match mget s.games gameCode with
  | none => []
  | some game =>
      let messageStr := ser m
      sendAttempts messageStr fail game.players

/-! ## Role assignment (lines 275-320) -/

/-- The swap `[a[i], a[j]] = [a[j], a[i]]` of the Fisher-Yates loop. -/
def swapIdx (l : List α) (i j : Nat) : List α :=
  match l.get? i, l.get? j with
  | some a, some b => (l.set i b).set j a
  | _, _ => l

/-- The shuffle loop of `assignRoles` (lines 282-285): `i` runs from
`length - 1` down to `1`, swapping index `i` with a random `j ≤ i`
(`rand i % (i + 1)` stands for `Math.floor(Math.random() * (i + 1))`). -/
def fyLoop (rand : Nat → Nat) : List Nat → Nat → List Nat
  | l, 0 => l
  | l, m + 1 => fyLoop rand (swapIdx l (m + 1) (rand (m + 1) % (m + 2))) m

/-- The full Fisher-Yates shuffle of `playerIds`. -/
def shuffleIds (rand : Nat → Nat) (l : List Nat) : List Nat :=
  fyLoop rand l (l.length - 1)

/-- The second loop of `assignRoles` (lines 297-316): walk the
non-Syndicate ids carrying the three `assigned…` flags. -/
def assignInnocents (settings : Settings) :
    List Nat → Bool → Bool → Bool → List (Nat × String)
  | [], _, _, _ => []
  | id :: rest, assignedDetective, assignedEyewitness, assignedBodyGuard =>
      if !assignedDetective then
        (id, "Detective") ::
          assignInnocents settings rest true assignedEyewitness assignedBodyGuard
      else if settings.eyeWitness && !assignedEyewitness then
        (id, "Eye Witness") ::
          assignInnocents settings rest assignedDetective true assignedBodyGuard
      else if settings.bodyGuard && !assignedBodyGuard then
        (id, "Body Guard") ::
          assignInnocents settings rest assignedDetective assignedEyewitness true
      else
        (id, "Innocent Bystander") ::
          assignInnocents settings rest assignedDetective assignedEyewitness
            assignedBodyGuard

/-- `assignRoles` (lines 275-320), with the room's settings and player
ids passed directly (the JS method reads them off `games.get(gameCode)`)
and the shuffle's randomness explicit. -/
def assignRoles (rand : Nat → Nat) (settings : Settings)
    (playerIds0 : List Nat) : List (Nat × String) :=
  let playerIds := shuffleIds rand playerIds0
  let playerCount := playerIds.length
  let syndicateCount := (playerCount + 2) / 3
  (playerIds.take syndicateCount).map (fun id => (id, "Syndicate"))
    ++ assignInnocents settings (playerIds.drop syndicateCount) false false false

/-- Number of ids mapped to a given role by a role assignment. -/
def roleCount (role : String) (l : List (Nat × String)) : Nat :=
  l.countP (fun q => q.2 == role)

/-! ## Operations (lines 64-271 and 418-531) -/

/-- `createGame` (lines 64-111).  `token` is the value
`generatePlayerToken()` returns; `none` models the (probability-zero)
run where the code-generation loop never exits. -/
def createGame (rand : Nat → Nat) (fuel : Nat) (token : String) (cid : Nat)
    (d : CreateData) (s : ServerState) :
    Option (ServerState × List (Nat × Msg)) :=
  let playerName := jsTrim (d.playerName.getD "")
  if playerName = "" then some (s, [(cid, Msg.error "Player name is required")])
  else
    match generateGameCode rand s.games fuel with
    | none => none
    | some gameCode =>
        let player : Player :=
          { name := playerName, isHost := true, connection := true,
            token := token, connected := true, alive := none }
        let game : Game :=
          { code := gameCode, host := cid, hostToken := token,
            players := [(cid, player)],
            settings := { eyeWitness := d.eyeWitness.getD false,
                          bodyGuard := d.bodyGuard.getD false },
            status := "lobby", round := none, roles := none,
            readyStates := none, caseNotes := none }
        let s' : ServerState :=
          { games := msetKV s.games gameCode game,
            playerConnections := msetKV s.playerConnections cid gameCode,
            playerTokens := msetKV s.playerTokens token (gameCode, cid) }
        some (s', [(cid, Msg.gameCreated gameCode (getPlayerList s' gameCode)
                          true token)])

/-- The inbound game-code normalization of `joinGame` (line 115):
`(data.gameCode ?? '').toUpperCase().trim()`. -/
def normCode (gameCode : Option String) : String :=
  jsTrim (jsToUpperCase (gameCode.getD ""))

/-- `joinGame` (lines 113-183). -/
def joinGame (token : String) (cid : Nat) (d : JoinData) (s : ServerState) :
    ServerState × List (Nat × Msg) :=
  let playerName := jsTrim (d.playerName.getD "")
  let gameCode := normCode d.gameCode
  if playerName = "" then (s, [(cid, Msg.error "Player name is required")])
  else
    match mget s.games gameCode with
    | none => (s, [(cid, Msg.error "Game not found")])
    | some game =>
        if game.status ≠ "lobby" then
          (s, [(cid, Msg.error "Game has already started")])
        else if game.players.any
            (fun q => jsToLowerCase q.2.name == jsToLowerCase playerName) then
          (s, [(cid, Msg.error "That name is already taken")])
        else
          let player : Player :=
            { name := playerName, isHost := false, connection := true,
              token := token, connected := true, alive := none }
          let game' : Game := { game with players := msetKV game.players cid player }
          let s' : ServerState :=
            { games := msetKV s.games gameCode game',
              playerConnections := msetKV s.playerConnections cid gameCode,
              playerTokens := msetKV s.playerTokens token (gameCode, cid) }
          (s', (cid, Msg.gameJoined gameCode (getPlayerList s' gameCode)
                       false token)
                 :: broadcastToGame s' gameCode
                      (Msg.playerListUpdate (getPlayerList s' gameCode)))

/-- `startGame` (lines 187-271). -/
def startGame (rand : Nat → Nat) (cid : Nat) (s : ServerState) :
    ServerState × List (Nat × Msg) :=
  match mget s.playerConnections cid with
  | none => (s, [])
  | some gameCode =>
      match mget s.games gameCode with
      | none => (s, [])
      | some game =>
          if game.host ≠ cid then
            (s, [(cid, Msg.error "Only the host can start the game")])
          else if game.status ≠ "lobby" then
            (s, [(cid, Msg.error "Game is not in lobby state")])
          else if game.players.length < 5 then
            (s, [(cid, Msg.error "Need at least 5 players to start")])
          else
            let playerCount := game.players.length
            let roles := assignRoles rand game.settings (mkeys game.players)
            let readyStates := game.players.map (fun q => (q.1, false))
            let game' : Game :=
              { game with roles := some roles, status := "playing",
                          round := some 1, caseNotes := some [],
                          readyStates := some readyStates }
            let sends := game.players.filterMap (fun q =>
              let role := (mget roles q.1).getD "Unknown"
              let teammates :=
                if role = "Syndicate" then
                  roles.filterMap (fun r =>
                    if r.2 = "Syndicate" ∧ r.1 ≠ q.1 then
                      some (((mget game.players r.1).map Player.name).getD "")
                    else none)
                else []
              if q.2.connection then
                some (q.1, Msg.roleAssigned role teammates playerCount 0 playerCount)
              else none)
            ({ s with games := msetKV s.games gameCode game' }, sends)

/-- `playerReady` (lines 418-436).  `const readyStates =
game.readyStates || new Map()` aliases the stored map when it exists
(the `set` persists) and a fresh local map otherwise (the `set` is
discarded). -/
def playerReady (cid : Nat) (s : ServerState) : ServerState × List (Nat × Msg) :=
  match mget s.playerConnections cid with
  | none => (s, [])
  | some gameCode =>
      match mget s.games gameCode with
      | none => (s, [])
      | some game =>
          match game.readyStates with
          | some rs =>
              let rs' := msetKV rs cid true
              let game' : Game := { game with readyStates := some rs' }
              let s' : ServerState := { s with games := msetKV s.games gameCode game' }
              let readyCount := (rs'.map Prod.snd).countP (fun v => v)
              (s', broadcastToGame s' gameCode
                     (Msg.readyUpdate readyCount game.players.length))
          | none =>
              let rs' := msetKV ([] : List (Nat × Bool)) cid true
              let readyCount := (rs'.map Prod.snd).countP (fun v => v)
              (s, broadcastToGame s gameCode
                    (Msg.readyUpdate readyCount game.players.length))

/-- `leaveGame` (lines 438-466).  Host case: broadcast the terminal
error, then delete the room; non-host case: delete the member, then
broadcast the new roster. -/
def leaveGame (cid : Nat) (s : ServerState) : ServerState × List (Nat × Msg) :=
  match mget s.playerConnections cid with
  | none => (s, [])
  | some gameCode =>
      match mget s.games gameCode with
      | none => (s, [])
      | some game =>
          match mget game.players cid with
          | none => (s, [])
          | some _player =>
              if game.host = cid then
                let out := broadcastToGame s gameCode
                  (Msg.error "Host left the game. Game ended.")
                ({ s with games := mdel s.games gameCode,
                          playerConnections := mdel s.playerConnections cid },
                 out)
              else
                let game' : Game := { game with players := mdel game.players cid }
                let s1 : ServerState := { s with games := msetKV s.games gameCode game' }
                let out := broadcastToGame s1 gameCode
                  (Msg.playerListUpdate (getPlayerList s1 gameCode))
                ({ s1 with playerConnections := mdel s1.playerConnections cid },
                 out)

/-- `removePlayer` (lines 468-510). -/
def removePlayer (cid : Nat) (d : RemoveData) (s : ServerState) :
    ServerState × List (Nat × Msg) :=
  match mget s.playerConnections cid with
  | none => (s, [])
  | some gameCode =>
      match mget s.games gameCode with
      | none => (s, [])
      | some game =>
          if game.host ≠ cid then
            (s, [(cid, Msg.error "Only host can remove players")])
          else
            match d.targetId.bind (fun t => (mget game.players t).map (t, ·)) with
            | none => (s, [(cid, Msg.error "Player not found")])
            | some (targetId, targetPlayer) =>
                let game' : Game := { game with players := mdel game.players targetId }
                let s1 : ServerState :=
                  { s with games := msetKV s.games gameCode game',
                           playerConnections := mdel s.playerConnections targetId }
                let notice :=
                  if targetPlayer.connection then
                    [(targetId, Msg.removedFromGame
                        "You were removed from the game by the host")]
                  else []
                (s1, notice ++ broadcastToGame s1 gameCode
                        (Msg.playerListUpdate (getPlayerList s1 gameCode)))

/-- `onPlayerDisconnect` (lines 512-531). -/
def onPlayerDisconnect (cid : Nat) (s : ServerState) :
    ServerState × List (Nat × Msg) :=
  match mget s.playerConnections cid with
  | none => (s, [])
  | some gameCode =>
      match mget s.games gameCode with
      | none => (s, [])
      | some game =>
          match mget game.players cid with
          | none => (s, [])
          | some player =>
              let player' : Player := { player with connected := false }
              let game' : Game :=
                { game with players := msetKV game.players cid player' }
              let s' : ServerState := { s with games := msetKV s.games gameCode game' }
              (s', broadcastToGame s' gameCode
                     (Msg.playerDisconnected cid player.name))

/-! ## Step relations and invariants -/

/-- The server before any connection arrives (constructor, lines 4-9). -/
def initialState : ServerState :=
  { games := [], playerConnections := [], playerTokens := [] }

/-- One inbound event, dispatched exactly as `handleMessage` /
`onPlayerDisconnect` route it. -/
inductive FullStep : ServerState → ServerState → Prop
  | create (rand : Nat → Nat) (fuel : Nat) (token : String) (cid : Nat)
      (d : CreateData) (s s' : ServerState) (out : List (Nat × Msg))
      (h : createGame rand fuel token cid d s = some (s', out)) : FullStep s s'
  | join (token : String) (cid : Nat) (d : JoinData) (s : ServerState) :
      FullStep s (joinGame token cid d s).1
  | start (rand : Nat → Nat) (cid : Nat) (s : ServerState) :
      FullStep s (startGame rand cid s).1
  | ready (cid : Nat) (s : ServerState) : FullStep s (playerReady cid s).1
  | leave (cid : Nat) (s : ServerState) : FullStep s (leaveGame cid s).1
  | remove (cid : Nat) (d : RemoveData) (s : ServerState) :
      FullStep s (removePlayer cid d s).1
  | disconnect (cid : Nat) (s : ServerState) :
      FullStep s (onPlayerDisconnect cid s).1

/-- Reachable from the fresh server by any event sequence. -/
def ReachableFull (s : ServerState) : Prop :=
  Relation.ReflTransGen FullStep initialState s

/-- Like `FullStep`, but the two host-invariant-breaking inputs are
ruled out: a `joinGame` whose caller is already the host of the room it
names, and a `removePlayer` whose target is the caller itself. -/
inductive GoodStep : ServerState → ServerState → Prop
  | create (rand : Nat → Nat) (fuel : Nat) (token : String) (cid : Nat)
      (d : CreateData) (s s' : ServerState) (out : List (Nat × Msg))
      (h : createGame rand fuel token cid d s = some (s', out)) : GoodStep s s'
  | join (token : String) (cid : Nat) (d : JoinData) (s : ServerState)
      (hre : (mget s.games (normCode d.gameCode)).map Game.host ≠ some cid) :
      GoodStep s (joinGame token cid d s).1
  | start (rand : Nat → Nat) (cid : Nat) (s : ServerState) :
      GoodStep s (startGame rand cid s).1
  | ready (cid : Nat) (s : ServerState) : GoodStep s (playerReady cid s).1
  | leave (cid : Nat) (s : ServerState) : GoodStep s (leaveGame cid s).1
  | remove (cid : Nat) (d : RemoveData) (s : ServerState)
      (hself : d.targetId ≠ some cid) : GoodStep s (removePlayer cid d s).1
  | disconnect (cid : Nat) (s : ServerState) :
      GoodStep s (onPlayerDisconnect cid s).1

/-- Reachable from the fresh server avoiding the two breaking inputs. -/
def ReachableGood (s : ServerState) : Prop :=
  Relation.ReflTransGen GoodStep initialState s

/-- Number of players of a room marked `isHost`. -/
def hostCount (g : Game) : Nat := g.players.countP (fun q => q.2.isHost)

/-- Well-formedness of one room: unique player keys, exactly one player
marked `isHost`, and every `isHost` player keyed by `room.host`. -/
def GameWF (g : Game) : Prop :=
  (mkeys g.players).Nodup ∧ hostCount g = 1 ∧
    ∀ q ∈ g.players, q.2.isHost = true → q.1 = g.host

/-- Store invariant: unique room codes and every room well-formed. -/
def StoreInv (s : ServerState) : Prop :=
  (mkeys s.games).Nodup ∧ ∀ e ∈ s.games, GameWF e.2

instance (g : Game) : Decidable (GameWF g) := by unfold GameWF; infer_instance

instance (s : ServerState) : Decidable (StoreInv s) := by
  unfold StoreInv; infer_instance

/-! ## Concrete scenario used by counterexamples and witnesses -/

/-- Randomness oracle that always returns 0 (so the generated room code
is "AAAA" and the shuffle leaves ids in place). -/
def cexRand : Nat → Nat := fun _ => 0

/-- State after connection 1 creates a game as "Alice". -/
def cexS1 : ServerState :=
  ((createGame cexRand 1 "tok1" 1
      { playerName := some "Alice", eyeWitness := none, bodyGuard := none }
      initialState).map Prod.fst).getD initialState

/-- State after connection 2 joins as "Bob". -/
def cexS2 : ServerState :=
  (joinGame "tok2" 2 { playerName := some "Bob", gameCode := some "AAAA" }
    cexS1).1

/-- State after the host removes itself via `removePlayer`. -/
def cexS3 : ServerState := (removePlayer 1 { targetId := some 1 } cexS2).1

/-- A room updated the way `onPlayerDisconnect` updates it: the same
room with the player's record soft-marked `connected = false`. -/
def disconnectedRoom (g : Game) (cid : Nat) (p : Player) : Game :=
  { g with players := msetKV g.players cid { p with connected := false } }

/-- Placeholder room used only as an `Option.getD` default below. -/
def emptyRoom : Game :=
  { code := "", host := 0, hostToken := "", players := [],
    settings := { eyeWitness := false, bodyGuard := false }, status := "",
    round := none, roles := none, readyStates := none, caseNotes := none }

/-- Placeholder player used only as an `Option.getD` default below. -/
def emptyPlayer : Player :=
  { name := "", isHost := false, connection := false, token := "",
    connected := false, alive := none }

/-- The concrete room "AAAA" of a scenario state. -/
def cexRoom (s : ServerState) : Game := (mget s.games "AAAA").getD emptyRoom

/-- Bob's player record in the two-player scenario room. -/
def cexBob : Player := (mget (cexRoom cexS2).players 2).getD emptyPlayer

/-- Alice's (host) player record in the two-player scenario room. -/
def cexAlice : Player := (mget (cexRoom cexS2).players 1).getD emptyPlayer

/-- Randomness oracle whose first four draws spell the code "AB23". -/
def cexRandB : Nat → Nat := fun k => [0, 1, 24, 25].getD k 0

/-- State after connection 1 creates a game as "Ann" with code "AB23". -/
def cexSB1 : ServerState :=
  ((createGame cexRandB 1 "tokB" 1
      { playerName := some "Ann", eyeWitness := none, bodyGuard := none }
      initialState).map Prod.fst).getD initialState

/-- State after the host rejoins its own room under a fresh name. -/
def cexS4 : ServerState :=
  (joinGame "tok3" 1 { playerName := some "Carol", gameCode := some "AAAA" }
    cexS2).1

/-- State after Bob's transport connection drops. -/
def cexD2 : ServerState := (onPlayerDisconnect 2 cexS2).1

end GameHappy

namespace GameHappy

variable {κ α : Type} [DecidableEq κ]

theorem mget_msetKV_self (l : List (κ × α)) (k : κ) (v : α) :
    mget (msetKV l k v) k = some v := by
  induction l with
  | nil => simp [mget, msetKV]
  | cons e rest ih =>
    obtain ⟨k', v'⟩ := e
    by_cases h : k' = k <;> simp [mget, msetKV, h, ih]

theorem mget_msetKV_ne (l : List (κ × α)) (k k' : κ) (v : α) (h : k' ≠ k) :
    mget (msetKV l k v) k' = mget l k' := by
  have hks : ¬k = k' := fun h' => h h'.symm
  induction l with
  | nil => simp [mget, msetKV, hks]
  | cons e rest ih =>
    obtain ⟨k₀, v₀⟩ := e
    by_cases h0 : k₀ = k
    · subst h0
      simp [mget, msetKV, hks]
    · by_cases h1 : k₀ = k' <;> simp [mget, msetKV, h0, h1, h, ih]

theorem mem_msetKV {l : List (κ × α)} {k : κ} {v : α} {q : κ × α}
    (h : q ∈ msetKV l k v) : q = (k, v) ∨ q ∈ l := by
  induction l with
  | nil => simpa [msetKV] using h
  | cons e rest ih =>
    obtain ⟨k₀, v₀⟩ := e
    by_cases h0 : k₀ = k
    · simp [msetKV, h0] at h
      rcases h with h | h
      · exact Or.inl (by simp [h])
      · exact Or.inr (List.mem_cons_of_mem _ h)
    · simp [msetKV, h0] at h
      rcases h with h | h
      · exact Or.inr (by simp [h])
      · rcases ih h with h' | h'
        · exact Or.inl h'
        · exact Or.inr (List.mem_cons_of_mem _ h')

theorem mget_mem {l : List (κ × α)} {k : κ} {v : α}
    (h : mget l k = some v) : (k, v) ∈ l := by
  induction l with
  | nil => simp [mget] at h
  | cons e rest ih =>
    obtain ⟨k₀, v₀⟩ := e
    by_cases h0 : k₀ = k
    · subst h0
      simp [mget] at h
      simp [h]
    · simp [mget, h0] at h
      exact List.mem_cons_of_mem _ (ih h)

theorem mget_eq_none_iff (l : List (κ × α)) (k : κ) :
    mget l k = none ↔ k ∉ mkeys l := by
  induction l with
  | nil => simp [mget, mkeys]
  | cons e rest ih =>
    obtain ⟨k₀, v₀⟩ := e
    by_cases h0 : k₀ = k <;> simp [mget, mkeys, h0, ih, mkeys, Ne.symm]

theorem msetKV_of_not_mem (l : List (κ × α)) (k : κ) (v : α)
    (h : mget l k = none) : msetKV l k v = l ++ [(k, v)] := by
  induction l with
  | nil => simp [msetKV]
  | cons e rest ih =>
    obtain ⟨k₀, v₀⟩ := e
    by_cases h0 : k₀ = k
    · simp [mget, h0] at h
    · simp [mget, h0] at h
      simp [msetKV, h0, ih h]

theorem mkeys_msetKV_of_mem (l : List (κ × α)) (k : κ) (v w : α)
    (h : mget l k = some w) : mkeys (msetKV l k v) = mkeys l := by
  induction l with
  | nil => simp [mget] at h
  | cons e rest ih =>
    obtain ⟨k₀, v₀⟩ := e
    by_cases h0 : k₀ = k
    · subst h0
      simp [msetKV, mkeys]
    · simp [mget, h0] at h
      simp [msetKV, mkeys, h0] at ih ⊢
      exact ih h

theorem mem_mkeys_msetKV {l : List (κ × α)} {k k' : κ} {v : α}
    (h : k' ∈ mkeys (msetKV l k v)) : k' = k ∨ k' ∈ mkeys l := by
  simp only [mkeys, List.mem_map] at h
  obtain ⟨q, hq, hq'⟩ := h
  rcases mem_msetKV hq with h' | h'
  · left
    rw [← hq', h']
  · right
    exact List.mem_map.mpr ⟨q, h', hq'⟩

theorem nodup_mkeys_msetKV {l : List (κ × α)} (k : κ) (v : α)
    (h : (mkeys l).Nodup) : (mkeys (msetKV l k v)).Nodup := by
  induction l with
  | nil => simp [msetKV, mkeys]
  | cons e rest ih =>
    obtain ⟨k₀, v₀⟩ := e
    rw [mkeys, List.map_cons, List.nodup_cons] at h
    by_cases h0 : k₀ = k
    · subst h0
      rw [msetKV, if_pos rfl, mkeys, List.map_cons, List.nodup_cons]
      exact ⟨h.1, h.2⟩
    · rw [msetKV, if_neg h0, mkeys, List.map_cons, List.nodup_cons]
      refine ⟨fun h' => ?_, ih h.2⟩
      rcases mem_mkeys_msetKV (show (k₀ : κ) ∈ mkeys (msetKV rest k v) from h') with h'' | h''
      · exact h0 h''
      · exact h.1 (by simpa [mkeys] using h'')

theorem countP_msetKV_of_not (P : κ × α → Bool) (l : List (κ × α)) (k : κ) (v : α)
    (hv : P (k, v) = false) (hold : ∀ e ∈ l, e.1 = k → P e = false) :
    (msetKV l k v).countP P = l.countP P := by
  induction l with
  | nil => simp [msetKV, List.countP_cons, hv]
  | cons e rest ih =>
    obtain ⟨k₀, v₀⟩ := e
    by_cases h0 : k₀ = k
    · subst h0
      have h00 : P (k₀, v₀) = false := hold (k₀, v₀) (by simp) rfl
      simp [msetKV, List.countP_cons, hv, h00]
    · simp only [msetKV, if_neg h0, List.countP_cons]
      rw [ih (fun e he hk => hold e (List.mem_cons_of_mem _ he) hk)]

theorem countP_msetKV_agree (P : κ × α → Bool) (l : List (κ × α)) (k : κ) (v w : α)
    (hw : mget l k = some w) (hP : P (k, v) = P (k, w)) :
    (msetKV l k v).countP P = l.countP P := by
  induction l with
  | nil => simp [mget] at hw
  | cons e rest ih =>
    obtain ⟨k₀, v₀⟩ := e
    by_cases h0 : k₀ = k
    · subst h0
      simp [mget] at hw
      subst hw
      simp [msetKV, List.countP_cons, hP]
    · simp [mget, h0] at hw
      simp only [msetKV, if_neg h0, List.countP_cons]
      rw [ih hw]

theorem mem_mdel {l : List (κ × α)} {k : κ} {q : κ × α}
    (h : q ∈ mdel l k) : q ∈ l := by
  induction l with
  | nil => simpa [mdel] using h
  | cons e rest ih =>
    obtain ⟨k₀, v₀⟩ := e
    by_cases h0 : k₀ = k
    · simp [mdel, h0] at h
      exact List.mem_cons_of_mem _ h
    · simp [mdel, h0] at h
      rcases h with h | h
      · simp [h]
      · exact List.mem_cons_of_mem _ (ih h)

theorem mdel_sublist (l : List (κ × α)) (k : κ) : (mdel l k).Sublist l := by
  induction l with
  | nil => simp [mdel]
  | cons e rest ih =>
    obtain ⟨k₀, v₀⟩ := e
    by_cases h0 : k₀ = k
    · simpa [mdel, h0] using List.sublist_cons_self _ _
    · simpa [mdel, h0] using ih

theorem nodup_mkeys_mdel {l : List (κ × α)} (k : κ)
    (h : (mkeys l).Nodup) : (mkeys (mdel l k)).Nodup := by
  exact h.sublist ((mdel_sublist l k).map Prod.fst)

theorem countP_mdel_of_not (P : κ × α → Bool) (l : List (κ × α)) (k : κ)
    (hold : ∀ e ∈ l, e.1 = k → P e = false) :
    (mdel l k).countP P = l.countP P := by
  induction l with
  | nil => simp [mdel]
  | cons e rest ih =>
    obtain ⟨k₀, v₀⟩ := e
    by_cases h0 : k₀ = k
    · subst h0
      have h00 : P (k₀, v₀) = false := hold (k₀, v₀) (by simp) rfl
      simp [mdel, List.countP_cons, h00]
    · simp only [mdel, if_neg h0, List.countP_cons]
      rw [ih (fun e he hk => hold e (List.mem_cons_of_mem _ he) hk)]

theorem mget_mdel_ne (l : List (κ × α)) (k k' : κ) (h : k' ≠ k) :
    mget (mdel l k) k' = mget l k' := by
  have hks : ¬k = k' := fun h' => h h'.symm
  induction l with
  | nil => simp [mdel]
  | cons e rest ih =>
    obtain ⟨k₀, v₀⟩ := e
    by_cases h0 : k₀ = k
    · subst h0
      simp [mdel, mget, hks]
    · by_cases h1 : k₀ = k' <;> simp [mdel, mget, h0, h1, h, ih]

end GameHappy

namespace GameHappy

/-! ### The Fisher-Yates shuffle is a permutation -/

theorem perm_cons_set {α : Type} (t : List α) (k : Nat) (a : α) (h : k < t.length) :
    (a :: t).Perm (t.get ⟨k, h⟩ :: t.set k a) := by
  induction t generalizing k a with
  | nil => simp at h
  | cons b t' ih =>
    match k with
    | 0 => simpa [List.set] using List.Perm.swap b a t'
    | k + 1 =>
      have h' : k < t'.length := by simpa [Nat.succ_lt_succ_iff] using h
      have step1 : (a :: b :: t').Perm (b :: a :: t') := List.Perm.swap b a t'
      have step2 : (b :: a :: t').Perm (b :: t'.get ⟨k, h'⟩ :: t'.set k a) :=
        List.Perm.cons b (ih k a h')
      have step3 : (b :: t'.get ⟨k, h'⟩ :: t'.set k a).Perm
          (t'.get ⟨k, h'⟩ :: b :: t'.set k a) :=
        List.Perm.swap (t'.get ⟨k, h'⟩) b _
      simpa [List.get_cons_succ, List.set_cons_succ] using
        (step1.trans step2).trans step3

theorem set_set_perm {α : Type} (l : List α) (i j : Nat) (hi : i < l.length)
    (hj : j < l.length) :
    ((l.set i (l.get ⟨j, hj⟩)).set j (l.get ⟨i, hi⟩)).Perm l := by
  induction l generalizing i j with
  | nil => simp at hi
  | cons a t ih =>
    match i, j with
    | 0, 0 => simp [List.set]
    | 0, k + 1 =>
      have hk : k < t.length := by simpa [Nat.succ_lt_succ_iff] using hj
      simpa [List.get_cons_zero, List.get_cons_succ, List.set_cons_zero,
        List.set_cons_succ] using (perm_cons_set t k a hk).symm
    | k + 1, 0 =>
      have hk : k < t.length := by simpa [Nat.succ_lt_succ_iff] using hi
      simpa [List.get_cons_zero, List.get_cons_succ, List.set_cons_zero,
        List.set_cons_succ] using (perm_cons_set t k a hk).symm
    | i' + 1, j' + 1 =>
      have hi' : i' < t.length := by simpa [Nat.succ_lt_succ_iff] using hi
      have hj' : j' < t.length := by simpa [Nat.succ_lt_succ_iff] using hj
      simpa [List.get_cons_succ, List.set_cons_succ] using
        List.Perm.cons a (ih i' j' hi' hj')

theorem swapIdx_perm {α : Type} (l : List α) (i j : Nat) :
    (swapIdx l i j).Perm l := by
  unfold swapIdx
  split
  · next a b h1 h2 =>
    obtain ⟨hi, ha⟩ := List.get?_eq_some.mp h1
    obtain ⟨hj, hb⟩ := List.get?_eq_some.mp h2
    have hp := set_set_perm l i j hi hj
    rw [ha, hb] at hp
    exact hp
  · exact List.Perm.refl l

theorem fyLoop_perm (rand : Nat → Nat) (l : List Nat) (m : Nat) :
    (fyLoop rand l m).Perm l := by
  induction m generalizing l with
  | zero => exact List.Perm.refl l
  | succ m ih =>
    exact (ih (swapIdx l (m + 1) (rand (m + 1) % (m + 2)))).trans
      (swapIdx_perm l (m + 1) (rand (m + 1) % (m + 2)))

theorem shuffleIds_perm (rand : Nat → Nat) (l : List Nat) :
    (shuffleIds rand l).Perm l := fyLoop_perm rand l (l.length - 1)

theorem shuffleIds_length (rand : Nat → Nat) (l : List Nat) :
    (shuffleIds rand l).length = l.length :=
  (shuffleIds_perm rand l).length_eq

/-! ### Counting the roles handed out by the innocents loop -/

theorem roleCount_cons (role : String) (q : Nat × String) (l : List (Nat × String)) :
    roleCount role (q :: l)
      = roleCount role l + (if q.2 == role then 1 else 0) :=
  List.countP_cons _ _ _

theorem mkeys_cons (q : κ × α) (l : List (κ × α)) :
    mkeys (q :: l) = q.1 :: mkeys l := rfl

theorem keys_assignInnocents (st : Settings) :
    ∀ (l : List Nat) (d e b : Bool), mkeys (assignInnocents st l d e b) = l := by
  intro l
  induction l with
  | nil => intro d e b; rfl
  | cons id rest ih =>
    intro d e b
    simp only [assignInnocents]
    split_ifs <;> rw [mkeys_cons, ih]

theorem length_assignInnocents (st : Settings) (l : List Nat) (d e b : Bool) :
    (assignInnocents st l d e b).length = l.length := by
  have h := congrArg List.length (keys_assignInnocents st l d e b)
  simpa [mkeys] using h

theorem det_assignInnocents_done (st : Settings) :
    ∀ (l : List Nat) (e b : Bool),
      roleCount "Detective" (assignInnocents st l true e b) = 0 := by
  intro l
  induction l with
  | nil => intro e b; rfl
  | cons id rest ih =>
    intro e b
    simp only [assignInnocents, Bool.not_true, Bool.false_eq_true, if_false]
    split_ifs <;> simp [roleCount_cons, ih]

theorem det_assignInnocents (st : Settings) (l : List Nat) (e b : Bool) :
    roleCount "Detective" (assignInnocents st l false e b) = min 1 l.length := by
  cases l with
  | nil => rfl
  | cons id rest =>
    simp only [assignInnocents, Bool.not_false, if_true]
    simp [roleCount_cons, det_assignInnocents_done st rest e b]

theorem eye_assignInnocents_done (st : Settings) :
    ∀ (l : List Nat) (d b : Bool),
      roleCount "Eye Witness" (assignInnocents st l d true b) = 0 := by
  intro l
  induction l with
  | nil => intro d b; rfl
  | cons id rest ih =>
    intro d b
    simp only [assignInnocents, Bool.not_true, Bool.and_false, Bool.false_eq_true,
      if_false]
    split_ifs <;> simp [roleCount_cons, ih]

theorem eye_assignInnocents_afterDet (st : Settings) :
    ∀ (l : List Nat) (b : Bool),
      roleCount "Eye Witness" (assignInnocents st l true false b)
        = if st.eyeWitness then min 1 l.length else 0 := by
  intro l
  induction l with
  | nil => intro b; simp [assignInnocents, roleCount]
  | cons id rest ih =>
    intro b
    by_cases he : st.eyeWitness
    · simp [assignInnocents, he, roleCount_cons, eye_assignInnocents_done st rest]
    · by_cases hb : st.bodyGuard && !b
      · simp [assignInnocents, he, hb, roleCount_cons, ih]
      · simp [assignInnocents, he, hb, roleCount_cons, ih]

theorem eye_assignInnocents (st : Settings) (l : List Nat) (b : Bool) :
    roleCount "Eye Witness" (assignInnocents st l false false b)
      = if st.eyeWitness then min 1 (l.length - 1) else 0 := by
  cases l with
  | nil => simp [assignInnocents, roleCount]
  | cons id rest =>
    simp only [assignInnocents, Bool.not_false, if_true]
    simp [roleCount_cons, eye_assignInnocents_afterDet st rest b]

theorem body_assignInnocents_done (st : Settings) :
    ∀ (l : List Nat) (d e : Bool),
      roleCount "Body Guard" (assignInnocents st l d e true) = 0 := by
  intro l
  induction l with
  | nil => intro d e; rfl
  | cons id rest ih =>
    intro d e
    simp only [assignInnocents, Bool.not_true, Bool.and_false, Bool.false_eq_true,
      if_false]
    split_ifs <;> simp [roleCount_cons, ih]

theorem body_assignInnocents_afterEye (st : Settings) :
    ∀ (l : List Nat),
      roleCount "Body Guard" (assignInnocents st l true true false)
        = if st.bodyGuard then min 1 l.length else 0 := by
  intro l
  induction l with
  | nil => simp [assignInnocents, roleCount]
  | cons id rest ih =>
    by_cases hb : st.bodyGuard
    · simp [assignInnocents, hb, roleCount_cons, body_assignInnocents_done st rest]
    · simp [assignInnocents, hb, roleCount_cons, ih]

theorem body_assignInnocents_afterDet (st : Settings) :
    ∀ (l : List Nat),
      roleCount "Body Guard" (assignInnocents st l true false false)
        = if st.bodyGuard then
            min 1 (l.length - (if st.eyeWitness then 1 else 0)) else 0 := by
  intro l
  induction l with
  | nil => simp [assignInnocents, roleCount]
  | cons id rest ih =>
    by_cases he : st.eyeWitness
    · simp [assignInnocents, he, roleCount_cons, body_assignInnocents_afterEye st rest]
    · by_cases hb : st.bodyGuard
      · simp [assignInnocents, he, hb, roleCount_cons,
          body_assignInnocents_done st rest]
      · simp [assignInnocents, he, hb, roleCount_cons, ih]

theorem body_assignInnocents (st : Settings) (l : List Nat) :
    roleCount "Body Guard" (assignInnocents st l false false false)
      = if st.bodyGuard then
          min 1 (l.length - 1 - (if st.eyeWitness then 1 else 0)) else 0 := by
  cases l with
  | nil => simp [assignInnocents, roleCount]
  | cons id rest =>
    simp only [assignInnocents, Bool.not_false, if_true]
    simp [roleCount_cons, body_assignInnocents_afterDet st rest]

theorem synd_assignInnocents (st : Settings) :
    ∀ (l : List Nat) (d e b : Bool),
      roleCount "Syndicate" (assignInnocents st l d e b) = 0 := by
  intro l
  induction l with
  | nil => intro d e b; rfl
  | cons id rest ih =>
    intro d e b
    simp only [assignInnocents]
    split_ifs <;> simp [roleCount_cons, ih]

theorem sum_assignInnocents (st : Settings) :
    ∀ (l : List Nat) (d e b : Bool),
      roleCount "Detective" (assignInnocents st l d e b)
        + roleCount "Eye Witness" (assignInnocents st l d e b)
        + roleCount "Body Guard" (assignInnocents st l d e b)
        + roleCount "Innocent Bystander" (assignInnocents st l d e b)
        = l.length := by
  intro l
  induction l with
  | nil => intro d e b; rfl
  | cons id rest ih =>
    intro d e b
    simp only [assignInnocents]
    split_ifs with h1 h2 h3
    · have h := ih true e b
      simp only [roleCount_cons]
      simp only [List.length_cons]
      simp
      omega
    · have h := ih d true b
      simp only [roleCount_cons]
      simp only [List.length_cons]
      simp
      omega
    · have h := ih d e true
      simp only [roleCount_cons]
      simp only [List.length_cons]
      simp
      omega
    · have h := ih d e b
      simp only [roleCount_cons]
      simp only [List.length_cons]
      simp
      omega

theorem roleCount_append (r : String) (l1 l2 : List (Nat × String)) :
    roleCount r (l1 ++ l2) = roleCount r l1 + roleCount r l2 :=
  List.countP_append _ _ _

theorem roleCount_map_const (r role : String) (l : List Nat) :
    roleCount r (l.map (fun id => (id, role)))
      = if role == r then l.length else 0 := by
  by_cases h : role == r <;>
    simp [roleCount, List.countP_map, Function.comp, h]

/--
C1: for every player-id sequence and settings, `assignRoles` hands out
exactly one role per id (the keys of the result are a permutation of the
input ids, without duplicates when the ids have none), the total number
of roles equals `n`, exactly `ceil(n/3)` ids get Syndicate, exactly one
id gets Detective when a non-Syndicate slot exists (`n ≥ 2`) and none
otherwise, Eye Witness appears exactly when enabled and a slot remains
after the Detective, Body Guard exactly when enabled and a further slot
remains, and every remaining id gets Innocent Bystander (the four
non-Syndicate counts sum to `n - ceil(n/3)`).
-/
theorem C1_role_distribution (rand : Nat → Nat) (st : Settings) (ids : List Nat) :
    ((assignRoles rand st ids).map Prod.fst).Perm ids ∧
    (assignRoles rand st ids).length = ids.length ∧
    roleCount "Syndicate" (assignRoles rand st ids) = (ids.length + 2) / 3 ∧
    roleCount "Detective" (assignRoles rand st ids)
      = (if 2 ≤ ids.length then 1 else 0) ∧
    roleCount "Eye Witness" (assignRoles rand st ids)
      = (if st.eyeWitness = true ∧ (ids.length + 2) / 3 + 2 ≤ ids.length
          then 1 else 0) ∧
    roleCount "Body Guard" (assignRoles rand st ids)
      = (if st.bodyGuard = true ∧
            (ids.length + 2) / 3 + 2 + (if st.eyeWitness = true then 1 else 0)
              ≤ ids.length
          then 1 else 0) ∧
    roleCount "Detective" (assignRoles rand st ids)
      + roleCount "Eye Witness" (assignRoles rand st ids)
      + roleCount "Body Guard" (assignRoles rand st ids)
      + roleCount "Innocent Bystander" (assignRoles rand st ids)
      = ids.length - (ids.length + 2) / 3 ∧
    (ids.Nodup → ((assignRoles rand st ids).map Prod.fst).Nodup) := by
  have hperm := shuffleIds_perm rand ids
  have hlen : (shuffleIds rand ids).length = ids.length := hperm.length_eq
  have hk : (ids.length + 2) / 3 ≤ ids.length := by omega
  have hA : assignRoles rand st ids
      = ((shuffleIds rand ids).take ((ids.length + 2) / 3)).map
          (fun id => (id, "Syndicate"))
        ++ assignInnocents st
            ((shuffleIds rand ids).drop ((ids.length + 2) / 3))
            false false false := by
    simp [assignRoles, hlen]
  have htake : ((shuffleIds rand ids).take ((ids.length + 2) / 3)).length
      = (ids.length + 2) / 3 := by
    rw [List.length_take, hlen]
    omega
  have hdrop : ((shuffleIds rand ids).drop ((ids.length + 2) / 3)).length
      = ids.length - (ids.length + 2) / 3 := by
    rw [List.length_drop, hlen]
  have hkeysInn : (assignInnocents st
        ((shuffleIds rand ids).drop ((ids.length + 2) / 3))
        false false false).map Prod.fst
      = (shuffleIds rand ids).drop ((ids.length + 2) / 3) :=
    keys_assignInnocents st _ false false false
  have hkeys : (assignRoles rand st ids).map Prod.fst = shuffleIds rand ids := by
    rw [hA, List.map_append, List.map_map, hkeysInn]
    have h1 : (Prod.fst ∘ fun id => ((id : Nat), ("Syndicate" : String)))
        = fun id => id := rfl
    rw [h1]
    simp [List.take_append_drop]
  refine ⟨?_, ?_, ?_, ?_, ?_, ?_, ?_, ?_⟩
  · rw [hkeys]
    exact hperm
  · rw [hA, List.length_append, List.length_map, htake,
      length_assignInnocents, hdrop]
    omega
  · rw [hA, roleCount_append, roleCount_map_const,
      synd_assignInnocents st _ false false false, htake]
    simp
  · rw [hA, roleCount_append, roleCount_map_const,
      det_assignInnocents st _ false false, hdrop]
    simp only [show (("Syndicate" : String) == "Detective") = false from rfl,
      Bool.false_eq_true, if_false, Nat.zero_add]
    split_ifs <;> omega
  · rw [hA, roleCount_append, roleCount_map_const,
      eye_assignInnocents st _ false, hdrop]
    simp only [show (("Syndicate" : String) == "Eye Witness") = false from rfl,
      Bool.false_eq_true, if_false, Nat.zero_add]
    by_cases he : st.eyeWitness = true <;> simp [he] <;> split_ifs <;> omega
  · rw [hA, roleCount_append, roleCount_map_const,
      body_assignInnocents st _, hdrop]
    simp only [show (("Syndicate" : String) == "Body Guard") = false from rfl,
      Bool.false_eq_true, if_false, Nat.zero_add]
    by_cases hb : st.bodyGuard = true <;>
      by_cases he : st.eyeWitness = true <;>
        simp [hb, he] <;> split_ifs <;> omega
  · rw [hA]
    simp only [roleCount_append, roleCount_map_const]
    have hsum := sum_assignInnocents st
      ((shuffleIds rand ids).drop ((ids.length + 2) / 3)) false false false
    rw [hdrop] at hsum
    simp only [show (("Syndicate" : String) == "Detective") = false from rfl,
      show (("Syndicate" : String) == "Eye Witness") = false from rfl,
      show (("Syndicate" : String) == "Body Guard") = false from rfl,
      show (("Syndicate" : String) == "Innocent Bystander") = false from rfl,
      Bool.false_eq_true, if_false]
    omega
  · intro hnd
    rw [hkeys]
    exact (hperm.nodup_iff).mpr hnd

/--
C1 witness: on the concrete 5-player room with both optional roles
enabled, the theorem yields duplicate-free keys and exactly one
Detective.
-/
theorem C1_role_distribution_witness :
    ((assignRoles cexRand { eyeWitness := true, bodyGuard := true }
        [1, 2, 3, 4, 5]).map Prod.fst).Nodup ∧
    roleCount "Detective"
      (assignRoles cexRand { eyeWitness := true, bodyGuard := true }
        [1, 2, 3, 4, 5]) = 1 := by
  refine ⟨(C1_role_distribution cexRand
      { eyeWitness := true, bodyGuard := true } [1, 2, 3, 4, 5]).2.2.2.2.2.2.2
      (by decide), ?_⟩
  have h := (C1_role_distribution cexRand
      { eyeWitness := true, bodyGuard := true } [1, 2, 3, 4, 5]).2.2.2.1
  simpa using h

/--
C1 counterexample: with a single player the only id becomes Syndicate
(`ceil(1/3) = 1`), so no Detective is assigned at all, refuting the
claim's unconditional "exactly one id mapped to Detective".
-/
theorem C1_counterexample :
    assignRoles cexRand { eyeWitness := false, bodyGuard := false } [7]
      = [(7, "Syndicate")] ∧
    roleCount "Detective"
      (assignRoles cexRand { eyeWitness := false, bodyGuard := false } [7])
      ≠ 1 := by
  exact ⟨by decide, by decide⟩

theorem generateGameCode_spec (rand : Nat → Nat)
    (games : List (String × Game)) (fuel : Nat) (c : String)
    (h : generateGameCode rand games fuel = some c) :
    c.length = 4 ∧ (∀ ch ∈ c.data, ch ∈ characters.data) ∧
      mget games c = none := by
  induction fuel with
  | zero => simp [generateGameCode] at h
  | succ fuel ih =>
    rw [generateGameCode] at h
    by_cases hh : (mget games (makeCode rand (4 * fuel))).isSome
    · rw [if_pos hh] at h
      exact ih h
    · rw [if_neg hh] at h
      have hc : makeCode rand (4 * fuel) = c := by injection h
      subst hc
      refine ⟨rfl, ?_, Option.not_isSome_iff_eq_none.mp hh⟩
      intro ch hch
      simp [makeCode] at hch
      obtain ⟨i, hi, rfl⟩ := hch
      have h32 : characters.data.length = 32 := by decide
      have hmod : rand (4 * fuel + i) % characters.length
          < characters.data.length := by
        rw [h32]
        exact Nat.mod_lt _ (by decide)
      rw [List.getElem?_eq_getElem hmod]
      simp only [Option.getD_some]
      exact List.getElem_mem hmod

/--
C6: every code `generateGameCode` returns has exactly 4 characters, each
drawn from the fixed unambiguous alphabet
`ABCDEFGHJKLMNPQRSTUVWXYZ23456789`, and differs from the code of every
currently active room at the time it is returned.
-/
theorem C6_game_code_shape (rand : Nat → Nat) (games : List (String × Game))
    (fuel : Nat) (c : String)
    (h : generateGameCode rand games fuel = some c) :
    c.length = 4 ∧ (∀ ch ∈ c.data, ch ∈ characters.data) ∧
      mget games c = none :=
  generateGameCode_spec rand games fuel c h

/--
C6 witness: on the empty store with the all-zero randomness oracle the
generator returns "AAAA", which has the required shape and is unused.
-/
theorem C6_game_code_shape_witness :
    ("AAAA" : String).length = 4 ∧
    (∀ ch ∈ ("AAAA" : String).data, ch ∈ characters.data) ∧
    mget ([] : List (String × Game)) "AAAA" = none :=
  C6_game_code_shape cexRand [] 1 "AAAA" (by decide)

/--
C2: if the caller of `startGame` has a room but is not its host, or the
room is not in lobby status, or the room has fewer than 5 players, then
`startGame` leaves the whole store state unchanged and its only output
is a single error message unicast to the caller (nothing is broadcast).
-/
theorem C2_startGame_guard_noop (rand : Nat → Nat) (cid : Nat)
    (s : ServerState) (code : String) (g : Game)
    (hpc : mget s.playerConnections cid = some code)
    (hg : mget s.games code = some g)
    (hfail : g.host ≠ cid ∨ g.status ≠ "lobby" ∨ g.players.length < 5) :
    (startGame rand cid s).1 = s ∧
    ∃ msg, (startGame rand cid s).2 = [(cid, Msg.error msg)] := by
  by_cases hh : g.host = cid
  · by_cases hs : g.status = "lobby"
    · have hn : g.players.length < 5 := by
        rcases hfail with h | h | h
        · exact absurd hh h
        · exact absurd hs h
        · exact h
      have hres : startGame rand cid s
          = (s, [(cid, Msg.error "Need at least 5 players to start")]) := by
        simp [startGame, hpc, hg, hh, hs, hn]
      exact ⟨by rw [hres], ⟨_, by rw [hres]⟩⟩
    · have hres : startGame rand cid s
          = (s, [(cid, Msg.error "Game is not in lobby state")]) := by
        simp [startGame, hpc, hg, hh, hs]
      exact ⟨by rw [hres], ⟨_, by rw [hres]⟩⟩
  · have hres : startGame rand cid s
        = (s, [(cid, Msg.error "Only the host can start the game")]) := by
      simp [startGame, hpc, hg, hh]
    exact ⟨by rw [hres], ⟨_, by rw [hres]⟩⟩

/--
C2 witness: in the two-player lobby room "AAAA", the non-host caller 2
gets a single error and the state is untouched.
-/
theorem C2_startGame_guard_noop_witness :
    (startGame cexRand 2 cexS2).1 = cexS2 ∧
    ∃ msg, (startGame cexRand 2 cexS2).2 = [(2, Msg.error msg)] :=
  C2_startGame_guard_noop cexRand 2 cexS2 "AAAA" (cexRoom cexS2)
    (by decide) (by decide) (by decide)

/--
C3: `joinGame` validates in source order - blank trimmed name, then
room existence under the normalized code, then lobby status, then the
case-insensitive collision of the trimmed name - and the first failing
check short-circuits with the corresponding error unicast to the caller
alone, leaving the store untouched.
-/
theorem C3_joinGame_validation_order (token : String) (cid : Nat)
    (d : JoinData) (s : ServerState) :
    (jsTrim (d.playerName.getD "") = "" →
      joinGame token cid d s
        = (s, [(cid, Msg.error "Player name is required")])) ∧
    (jsTrim (d.playerName.getD "") ≠ "" →
      mget s.games (normCode d.gameCode) = none →
      joinGame token cid d s = (s, [(cid, Msg.error "Game not found")])) ∧
    (∀ g, jsTrim (d.playerName.getD "") ≠ "" →
      mget s.games (normCode d.gameCode) = some g →
      g.status ≠ "lobby" →
      joinGame token cid d s
        = (s, [(cid, Msg.error "Game has already started")])) ∧
    (∀ g, jsTrim (d.playerName.getD "") ≠ "" →
      mget s.games (normCode d.gameCode) = some g →
      g.status = "lobby" →
      g.players.any (fun q => jsToLowerCase q.2.name
        == jsToLowerCase (jsTrim (d.playerName.getD ""))) = true →
      joinGame token cid d s
        = (s, [(cid, Msg.error "That name is already taken")])) := by
  refine ⟨?_, ?_, ?_, ?_⟩
  · intro h
    simp [joinGame, h]
  · intro h hng
    simp [joinGame, h, hng]
  · intro g h hg hs
    simp [joinGame, h, hg, hs]
  · intro g h hg hs hcol
    simp [joinGame, h, hg, hs, hcol]

/--
C3 witness: in room "AAAA" a whitespace-only name yields the blank-name
error, and the name " alice " (colliding case-insensitively with member
"Alice") yields the name-taken error; both leave the state unchanged.
-/
theorem C3_joinGame_validation_order_witness :
    joinGame "tok9" 9 { playerName := some "   ", gameCode := some "AAAA" }
        cexS2
      = (cexS2, [(9, Msg.error "Player name is required")]) ∧
    joinGame "tok9" 9 { playerName := some " alice ", gameCode := some "AAAA" }
        cexS2
      = (cexS2, [(9, Msg.error "That name is already taken")]) :=
  ⟨(C3_joinGame_validation_order "tok9" 9
      { playerName := some "   ", gameCode := some "AAAA" } cexS2).1
      (by decide),
   (C3_joinGame_validation_order "tok9" 9
      { playerName := some " alice ", gameCode := some "AAAA" } cexS2).2.2.2
      (cexRoom cexS2) (by decide) (by decide) (by decide) (by decide)⟩

/--
C9: `joinGame` looks rooms up under the trimmed, upper-cased game code,
so for an existing room with canonical code, any raw code that
normalizes to it behaves exactly as the canonical code would.
-/
theorem C9_joinGame_code_normalization (token : String) (cid : Nat)
    (pn : Option String) (raw canonical : String) (s : ServerState) (g : Game)
    (hg : mget s.games canonical = some g)
    (hnorm : jsTrim (jsToUpperCase raw) = canonical)
    (hcanon : jsTrim (jsToUpperCase canonical) = canonical) :
    joinGame token cid { playerName := pn, gameCode := some raw } s
      = joinGame token cid { playerName := pn, gameCode := some canonical } s := by
  simp only [joinGame, normCode, Option.getD_some, hnorm, hcanon]

/--
C9 witness: joining room "AB23" with the raw code " ab23 " gives
exactly the same result (state and messages) as with "AB23".
-/
theorem C9_joinGame_code_normalization_witness :
    joinGame "tokB2" 2 { playerName := some "Ben", gameCode := some " ab23 " }
        cexSB1
      = joinGame "tokB2" 2 { playerName := some "Ben", gameCode := some "AB23" }
          cexSB1 :=
  C9_joinGame_code_normalization "tokB2" 2 (some "Ben") " ab23 " "AB23" cexSB1
    ((mget cexSB1.games "AB23").getD emptyRoom) (by decide) (by decide) (by decide)

/--
C10: if `playerReady` finds the caller's room but the room has no
`readyStates` map yet (it is still in lobby), it broadcasts a
`readyUpdate` (counting only the freshly created local map, so 1) and
leaves the store state completely unchanged.
-/
theorem C10_playerReady_lobby_noop (cid : Nat) (s : ServerState)
    (code : String) (g : Game)
    (hpc : mget s.playerConnections cid = some code)
    (hg : mget s.games code = some g)
    (hrs : g.readyStates = none) :
    playerReady cid s
      = (s, broadcastToGame s code (Msg.readyUpdate 1 g.players.length)) := by
  simp [playerReady, hpc, hg, hrs, msetKV]

/--
C10 witness: in the lobby room "AAAA" (no `readyStates` yet), caller 1
triggers only a `readyUpdate 1 2` broadcast and the state is unchanged;
in particular a second identical call sees the same state.
-/
theorem C10_playerReady_lobby_noop_witness :
    playerReady 1 cexS2
      = (cexS2, broadcastToGame cexS2 "AAAA" (Msg.readyUpdate 1 2)) :=
  C10_playerReady_lobby_noop 1 cexS2 "AAAA" (cexRoom cexS2)
    (by decide) (by decide) (by decide)

theorem length_msetKV_of_mem {κ α : Type} [DecidableEq κ]
    (l : List (κ × α)) (k : κ) (v w : α) (h : mget l k = some w) :
    (msetKV l k v).length = l.length := by
  have hm := congrArg List.length (mkeys_msetKV_of_mem l k v w h)
  simpa [mkeys] using hm

theorem mget_mdel_self {κ α : Type} [DecidableEq κ] (l : List (κ × α)) (k : κ)
    (hnd : (mkeys l).Nodup) : mget (mdel l k) k = none := by
  induction l with
  | nil => rfl
  | cons e rest ih =>
    obtain ⟨k₀, v₀⟩ := e
    rw [mkeys, List.map_cons, List.nodup_cons] at hnd
    by_cases h0 : k₀ = k
    · subst h0
      simp only [mdel, if_pos rfl]
      exact (mget_eq_none_iff rest k₀).mpr (by simpa [mkeys] using hnd.1)
    · simp only [mdel, if_neg h0, mget, if_neg h0]
      exact ih hnd.2

theorem mem_broadcastToGame {s : ServerState} {code : String} {game : Game}
    (hg : mget s.games code = some game) (m : Msg) {q : Nat × Player}
    (hmem : q ∈ game.players) (hconn : q.2.connection = true)
    (hcd : q.2.connected = true) :
    (q.1, m) ∈ broadcastToGame s code m := by
  have hb : broadcastToGame s code m
      = game.players.filterMap (fun q =>
          if q.2.connection && q.2.connected then some (q.1, m) else none) := by
    simp [broadcastToGame, hg]
  rw [hb]
  exact List.mem_filterMap.mpr ⟨q, hmem, by simp [hconn, hcd]⟩

theorem getPlayerList_ids (s : ServerState) (code : String) (game : Game)
    (hg : mget s.games code = some game) :
    (getPlayerList s code).map PlayerInfo.id = mkeys game.players := by
  simp [getPlayerList, hg, mkeys, List.map_map, Function.comp]

/--
C7: for a connection that belongs to a room, `onPlayerDisconnect` keeps
the player's record in the room with `connected` flipped to false,
changes nothing else (player count, key set, host, status, settings,
roles, readyStates, round, the other rooms, and the connection/token
registries are untouched - in particular no host reassignment), and
emits exactly a `playerDisconnected` broadcast naming the player.
-/
theorem C7_disconnect_soft_mark (cid : Nat) (s : ServerState) (code : String)
    (g : Game) (p : Player)
    (hpc : mget s.playerConnections cid = some code)
    (hg : mget s.games code = some g)
    (hp : mget g.players cid = some p) :
    (onPlayerDisconnect cid s).1
      = { s with games := msetKV s.games code (disconnectedRoom g cid p) } ∧
    (onPlayerDisconnect cid s).2
      = broadcastToGame (onPlayerDisconnect cid s).1 code
          (Msg.playerDisconnected cid p.name) ∧
    mget (disconnectedRoom g cid p).players cid
      = some { p with connected := false } ∧
    (∀ id, id ≠ cid →
      mget (disconnectedRoom g cid p).players id = mget g.players id) ∧
    (disconnectedRoom g cid p).players.length = g.players.length ∧
    mkeys (disconnectedRoom g cid p).players = mkeys g.players ∧
    (disconnectedRoom g cid p).host = g.host ∧
    (disconnectedRoom g cid p).status = g.status ∧
    (disconnectedRoom g cid p).settings = g.settings ∧
    (disconnectedRoom g cid p).roles = g.roles ∧
    (disconnectedRoom g cid p).readyStates = g.readyStates ∧
    (disconnectedRoom g cid p).round = g.round ∧
    (∀ c2, c2 ≠ code →
      mget (onPlayerDisconnect cid s).1.games c2 = mget s.games c2) ∧
    (onPlayerDisconnect cid s).1.playerConnections = s.playerConnections ∧
    (onPlayerDisconnect cid s).1.playerTokens = s.playerTokens := by
  have hstep : onPlayerDisconnect cid s
      = ({ s with games := msetKV s.games code (disconnectedRoom g cid p) },
         broadcastToGame
           { s with games := msetKV s.games code (disconnectedRoom g cid p) }
           code (Msg.playerDisconnected cid p.name)) := by
    simp [onPlayerDisconnect, hpc, hg, hp, disconnectedRoom]
  refine ⟨by rw [hstep], by rw [hstep],
    mget_msetKV_self _ _ _,
    fun id hid => mget_msetKV_ne _ _ _ _ hid,
    length_msetKV_of_mem _ _ _ _ hp,
    mkeys_msetKV_of_mem _ _ _ _ hp,
    rfl, rfl, rfl, rfl, rfl, rfl,
    ?_, by rw [hstep], by rw [hstep]⟩
  intro c2 hc2
  rw [hstep]
  exact mget_msetKV_ne _ _ _ _ hc2

/--
C7 witness: Bob (connection 2) disconnecting from the two-player room
"AAAA" yields exactly the store whose only change is Bob's record
soft-marked disconnected.
-/
theorem C7_disconnect_soft_mark_witness :
    (onPlayerDisconnect 2 cexS2).1
      = { cexS2 with games := msetKV cexS2.games "AAAA" (disconnectedRoom (cexRoom cexS2) 2 cexBob) } :=
  (C7_disconnect_soft_mark 2 cexS2 "AAAA" (cexRoom cexS2) cexBob
    (by decide) (by decide) (by decide)).1

/--
C5 (amended): a host `leaveGame` deletes the room and the terminal
error is broadcast, reaching every other member that is connected with
a live send capability; a non-host `leaveGame` removes exactly the
leaver's record (all other records unchanged) and the updated roster,
which excludes the leaver, is broadcast to every remaining connected
member.
-/
theorem C5_leaveGame_host_destroys (cid : Nat) (s : ServerState)
    (code : String) (g : Game) (p : Player)
    (hpc : mget s.playerConnections cid = some code)
    (hg : mget s.games code = some g)
    (hp : mget g.players cid = some p)
    (hndg : (mkeys s.games).Nodup)
    (hnd : (mkeys g.players).Nodup) :
    (g.host = cid →
      mget (leaveGame cid s).1.games code = none ∧
      (leaveGame cid s).2
        = broadcastToGame s code
            (Msg.error "Host left the game. Game ended.") ∧
      (∀ q ∈ g.players, q.1 ≠ cid → q.2.connection = true →
        q.2.connected = true →
        (q.1, Msg.error "Host left the game. Game ended.")
          ∈ (leaveGame cid s).2)) ∧
    (g.host ≠ cid →
      mget (leaveGame cid s).1.games code
        = some { g with players := mdel g.players cid } ∧
      mget (mdel g.players cid) cid = none ∧
      (∀ id, id ≠ cid →
        mget (mdel g.players cid) id = mget g.players id) ∧
      (∀ pi ∈ getPlayerList (leaveGame cid s).1 code, pi.id ≠ cid) ∧
      (∀ q ∈ mdel g.players cid, q.2.connection = true →
        q.2.connected = true →
        (q.1, Msg.playerListUpdate (getPlayerList { s with games := msetKV s.games code { g with players := mdel g.players cid } } code))
          ∈ (leaveGame cid s).2)) := by
  constructor
  · intro hh
    have hstep : leaveGame cid s
        = ({ s with games := mdel s.games code, playerConnections := mdel s.playerConnections cid },
           broadcastToGame s code (Msg.error "Host left the game. Game ended.")) := by
      simp [leaveGame, hpc, hg, hp, hh]
    refine ⟨by rw [hstep]; exact mget_mdel_self _ _ hndg, by rw [hstep], ?_⟩
    intro q hq hne hconn hcd
    rw [hstep]
    exact mem_broadcastToGame hg _ hq hconn hcd
  · intro hh
    have hh2 : ¬ g.host = cid := hh
    have hstep : leaveGame cid s
        = ({ s with games := msetKV s.games code { g with players := mdel g.players cid }, playerConnections := mdel s.playerConnections cid },
           broadcastToGame { s with games := msetKV s.games code { g with players := mdel g.players cid } } code (Msg.playerListUpdate (getPlayerList { s with games := msetKV s.games code { g with players := mdel g.players cid } } code))) := by
      simp [leaveGame, hpc, hg, hp, hh2]
    have hg' : mget (msetKV s.games code { g with players := mdel g.players cid }) code
        = some { g with players := mdel g.players cid } :=
      mget_msetKV_self _ _ _
    refine ⟨by rw [hstep]; exact hg',
      mget_mdel_self _ _ hnd,
      fun id hid => mget_mdel_ne _ _ _ hid,
      ?_, ?_⟩
    · intro pi hpi
      rw [hstep] at hpi
      have hids := getPlayerList_ids
        { s with games := msetKV s.games code { g with players := mdel g.players cid } } code
        { g with players := mdel g.players cid } hg'
      have hmem : pi.id ∈ mkeys (mdel g.players cid) := by
        rw [← hids]
        exact List.mem_map_of_mem PlayerInfo.id hpi
      intro hid
      rw [hid] at hmem
      exact (mget_eq_none_iff (mdel g.players cid) cid).mp
        (mget_mdel_self _ _ hnd) hmem
    · intro q hq hconn hcd
      rw [hstep]
      exact mem_broadcastToGame hg' _ hq hconn hcd

/--
C5 witness: in the fully-connected two-player room, the host's
`leaveGame` makes the room lookup fail and Bob (connection 2) receives
the terminal error.
-/
theorem C5_leaveGame_host_destroys_witness :
    mget (leaveGame 1 cexS2).1.games "AAAA" = none ∧
    (2, Msg.error "Host left the game. Game ended.") ∈ (leaveGame 1 cexS2).2 := by
  have h := (C5_leaveGame_host_destroys 1 cexS2 "AAAA" (cexRoom cexS2) cexAlice
    (by decide) (by decide) (by decide) (by decide) (by decide)).1 (by decide)
  exact ⟨h.1, h.2.2 (2, cexBob) (by decide) (by decide) (by decide) (by decide)⟩

/--
C5 counterexample: after Bob's transport connection drops (his record
is still a member of room "AAAA", soft-marked disconnected), the host's
`leaveGame` destroys the room but delivers no message at all to Bob -
refuting the claim that every other member receives the terminal error.
-/
theorem C5_counterexample :
    mget (cexRoom cexD2).players 2 = some { cexBob with connected := false } ∧
    (cexRoom cexD2).host = 1 ∧
    ((leaveGame 1 cexD2).2.all (fun e => e.1 != 2)) = true ∧
    mget (leaveGame 1 cexD2).1.games "AAAA" = none := by decide

theorem sendAttempts_cons (messageStr : String) (fail : Nat → Bool)
    (q : Nat × Player) (rest : List (Nat × Player)) :
    sendAttempts messageStr fail (q :: rest)
      = (if q.2.connection && q.2.connected then
          [(q.1, messageStr, !fail q.1)] else [])
        ++ sendAttempts messageStr fail rest := by
  by_cases hc : q.2.connection = true ∧ q.2.connected = true <;>
    simp [sendAttempts, List.filterMap_cons, hc]

theorem countP_attempts_of_mget_none (messageStr : String) (fail : Nat → Bool)
    (l : List (Nat × Player)) (id : Nat) (h : mget l id = none) :
    (sendAttempts messageStr fail l).countP (fun e => e.1 == id) = 0 := by
  induction l with
  | nil => rfl
  | cons q rest ih =>
    obtain ⟨k, v⟩ := q
    by_cases hk : k = id
    · simp [mget, hk] at h
    · have h2 : mget rest id = none := by simpa [mget, hk] using h
      have hkb : (k == id) = false := by simp [hk]
      rw [sendAttempts_cons, List.countP_append, ih h2]
      by_cases hc : v.connection && v.connected <;>
        simp [hc, List.countP_cons, hkb]

theorem countP_attempts_of_mget_some (messageStr : String) (fail : Nat → Bool) :
    ∀ (l : List (Nat × Player)) (id : Nat) (p : Player),
      (mkeys l).Nodup → mget l id = some p →
      (sendAttempts messageStr fail l).countP (fun e => e.1 == id)
        = if p.connection && p.connected then 1 else 0 := by
  intro l
  induction l with
  | nil => intro id p _ h; simp [mget] at h
  | cons q rest ih =>
    intro id p hnd h
    obtain ⟨k, v⟩ := q
    rw [mkeys, List.map_cons, List.nodup_cons] at hnd
    by_cases hk : k = id
    · subst hk
      have hv : v = p := by simpa [mget] using h
      subst hv
      have hz : mget rest k = none :=
        (mget_eq_none_iff rest k).mpr (by simpa [mkeys] using hnd.1)
      have hzero := countP_attempts_of_mget_none messageStr fail rest k hz
      rw [sendAttempts_cons, List.countP_append, hzero]
      by_cases hc : v.connection && v.connected <;>
        simp [hc, List.countP_cons]
    · have h2 : mget rest id = some p := by simpa [mget, hk] using h
      have hkb : (k == id) = false := by simp [hk]
      rw [sendAttempts_cons, List.countP_append, ih id p hnd.2 h2]
      by_cases hc : v.connection && v.connected <;>
        simp [hc, List.countP_cons, hkb]

/--
C8: for a room and message, `broadcastToGame` serializes the message
once - every attempted delivery carries the same serialized string
`ser m` - attempts delivery exactly once to each player whose
`connection` and `connected` flags are both set and never to any other
player, and the list of attempted recipients (with payloads) is the
same under any failure pattern: one recipient's send failure does not
suppress any other attempt, and nothing is retried.
-/
theorem C8_broadcast_contract (ser : Msg → String) (fail fail2 : Nat → Bool)
    (s : ServerState) (code : String) (m : Msg) (g : Game)
    (hg : mget s.games code = some g)
    (hnd : (mkeys g.players).Nodup) :
    (∀ e ∈ broadcastToGameSer ser fail s code m, e.2.1 = ser m) ∧
    (∀ id p, mget g.players id = some p →
      (broadcastToGameSer ser fail s code m).countP (fun e => e.1 == id)
        = if p.connection && p.connected then 1 else 0) ∧
    (∀ id, mget g.players id = none →
      (broadcastToGameSer ser fail s code m).countP (fun e => e.1 == id) = 0) ∧
    ((broadcastToGameSer ser fail s code m).map (fun e => (e.1, e.2.1))
      = (broadcastToGameSer ser fail2 s code m).map (fun e => (e.1, e.2.1))) := by
  have hb : ∀ fl : Nat → Bool, broadcastToGameSer ser fl s code m
      = sendAttempts (ser m) fl g.players := by
    intro fl
    simp [broadcastToGameSer, hg]
  refine ⟨?_, ?_, ?_, ?_⟩
  · intro e he
    rw [hb fail] at he
    obtain ⟨q, hq, hfq⟩ := List.mem_filterMap.mp he
    by_cases hc : q.2.connection && q.2.connected
    · rw [if_pos hc] at hfq
      obtain rfl := Option.some.inj hfq
      rfl
    · rw [if_neg hc] at hfq
      exact absurd hfq (by simp)
  · intro id p hmem
    rw [hb fail]
    exact countP_attempts_of_mget_some (ser m) fail g.players id p hnd hmem
  · intro id hnone
    rw [hb fail]
    exact countP_attempts_of_mget_none (ser m) fail g.players id hnone
  · rw [hb fail, hb fail2]
    have hmap : ∀ fl : Nat → Bool,
        (sendAttempts (ser m) fl g.players).map (fun e => (e.1, e.2.1))
        = g.players.filterMap (fun q =>
            if q.2.connection && q.2.connected then
              some (q.1, ser m) else none) := by
      intro fl
      rw [sendAttempts, List.map_filterMap]
      congr 1
      funext q
      by_cases hc : q.2.connection && q.2.connected <;> simp [hc]
    rw [hmap fail, hmap fail2]

/--
C8 witness: in the two-player room "AAAA", under a failure pattern that
makes every send throw, the attempted (recipient, payload) list is
identical to the one where every send succeeds, and the host is
attempted exactly once.
-/
theorem C8_broadcast_contract_witness :
    ((broadcastToGameSer (fun _ => "payload") (fun _ => false) cexS2 "AAAA"
        (Msg.readyUpdate 0 2)).map (fun e => (e.1, e.2.1))
      = (broadcastToGameSer (fun _ => "payload") (fun _ => true) cexS2 "AAAA"
          (Msg.readyUpdate 0 2)).map (fun e => (e.1, e.2.1))) ∧
    (broadcastToGameSer (fun _ => "payload") (fun _ => true) cexS2 "AAAA"
        (Msg.readyUpdate 0 2)).countP (fun e => e.1 == 1) = 1 := by
  have h := C8_broadcast_contract (fun _ => "payload") (fun _ => true)
    (fun _ => false) cexS2 "AAAA" (Msg.readyUpdate 0 2) (cexRoom cexS2)
    (by decide) (by decide)
  refine ⟨(h.2.2.2).symm, ?_⟩
  have h2 := h.2.1 1 cexAlice (by decide)
  simpa using h2

/-! ### Preservation of the host invariant, operation by operation -/

theorem gameWF_singleton (g : Game) (cid : Nat) (p : Player)
    (hp : g.players = [(cid, p)]) (hhost : g.host = cid)
    (hisHost : p.isHost = true) : GameWF g := by
  refine ⟨by simp [mkeys, hp], by simp [hostCount, hp, hisHost], ?_⟩
  intro q hq _
  rw [hp] at hq
  simp at hq
  simp [hq, hhost]

theorem storeInv_createGame (rand : Nat → Nat) (fuel : Nat) (token : String)
    (cid : Nat) (d : CreateData) (s s' : ServerState)
    (out : List (Nat × Msg))
    (h : createGame rand fuel token cid d s = some (s', out))
    (hs : StoreInv s) : StoreInv s' := by
  unfold createGame at h
  by_cases hname : jsTrim (d.playerName.getD "") = ""
  · rw [if_pos hname] at h
    injection h with hpair
    injection hpair with h1 h2
    rw [← h1]
    exact hs
  · rw [if_neg hname] at h
    cases hcode : generateGameCode rand s.games fuel with
    | none =>
      rw [hcode] at h
      exact absurd h (by simp)
    | some code =>
      rw [hcode] at h
      have hfresh : mget s.games code = none :=
        (generateGameCode_spec rand s.games fuel code hcode).2.2
      injection h with hpair
      injection hpair with h1 h2
      rw [← h1]
      refine ⟨?_, ?_⟩
      · show (mkeys (msetKV s.games code _)).Nodup
        rw [msetKV_of_not_mem _ _ _ hfresh, mkeys, List.map_append]
        refine List.Nodup.append hs.1 (by simp) ?_
        intro a ha hb
        simp at hb
        rw [hb] at ha
        exact (mget_eq_none_iff s.games code).mp hfresh ha
      · show ∀ e ∈ msetKV s.games code _, GameWF e.2
        rw [msetKV_of_not_mem _ _ _ hfresh]
        intro e he
        rcases List.mem_append.mp he with he | he
        · exact hs.2 e he
        · simp at he
          rw [he]
          exact gameWF_singleton _ cid _ rfl rfl rfl

theorem storeInv_joinGame (token : String) (cid : Nat) (d : JoinData)
    (s : ServerState)
    (hre : (mget s.games (normCode d.gameCode)).map Game.host ≠ some cid)
    (hs : StoreInv s) : StoreInv (joinGame token cid d s).1 := by
  by_cases h1 : jsTrim (d.playerName.getD "") = ""
  · simpa [joinGame, h1] using hs
  · cases hg : mget s.games (normCode d.gameCode) with
    | none => simpa [joinGame, h1, hg] using hs
    | some g =>
      have hhost : g.host ≠ cid := by
        rw [hg] at hre
        simpa using hre
      have hwf : GameWF g := hs.2 (normCode d.gameCode, g) (mget_mem hg)
      by_cases h2 : g.status = "lobby"
      case neg => simpa [joinGame, h1, hg, h2] using hs
      · by_cases h3 : g.players.any
            (fun q => jsToLowerCase q.2.name
              == jsToLowerCase (jsTrim (d.playerName.getD ""))) = true
        · simpa [joinGame, h1, hg, h2, h3] using hs
        · have hstep : (joinGame token cid d s).1
              = { games := msetKV s.games (normCode d.gameCode) { g with players := msetKV g.players cid { name := jsTrim (d.playerName.getD ""), isHost := false, connection := true, token := token, connected := true, alive := none } }, playerConnections := msetKV s.playerConnections cid (normCode d.gameCode), playerTokens := msetKV s.playerTokens token (normCode d.gameCode, cid) } := by
            simp [joinGame, h1, hg, h2, h3]
          rw [hstep]
          constructor
          · show (mkeys (msetKV s.games (normCode d.gameCode) _)).Nodup
            rw [mkeys_msetKV_of_mem _ _ _ _ hg]
            exact hs.1
          · intro e he
            rcases mem_msetKV he with he | he
            · rw [he]
              refine ⟨nodup_mkeys_msetKV _ _ hwf.1, ?_, ?_⟩
              · show (msetKV g.players cid _).countP _ = 1
                rw [countP_msetKV_of_not _ _ _ _ rfl ?_]
                · exact hwf.2.1
                · intro q hq hq1
                  by_cases hqh : q.2.isHost = true
                  · exact absurd ((hwf.2.2 q hq hqh).symm.trans hq1) hhost
                  · simpa using hqh
              · intro q hq hqh
                rcases mem_msetKV hq with hq | hq
                · rw [hq] at hqh
                  simp at hqh
                · exact hwf.2.2 q hq hqh
            · exact hs.2 e he

theorem storeInv_startGame (rand : Nat → Nat) (cid : Nat) (s : ServerState)
    (hs : StoreInv s) : StoreInv (startGame rand cid s).1 := by
  cases hpc : mget s.playerConnections cid with
  | none => simpa [startGame, hpc] using hs
  | some code =>
    cases hg : mget s.games code with
    | none => simpa [startGame, hpc, hg] using hs
    | some g =>
      have hwf : GameWF g := hs.2 (code, g) (mget_mem hg)
      by_cases hh : g.host = cid
      · by_cases hst : g.status = "lobby"
        · by_cases hn : g.players.length < 5
          · simpa [startGame, hpc, hg, hh, hst, hn] using hs
          · have hstep : (startGame rand cid s).1
                = { s with games := msetKV s.games code { g with roles := some (assignRoles rand g.settings (mkeys g.players)), status := "playing", round := some 1, caseNotes := some [], readyStates := some (g.players.map (fun q => (q.1, false))) } } := by
              simp [startGame, hpc, hg, hh, hst, hn]
            rw [hstep]
            constructor
            · show (mkeys (msetKV s.games code _)).Nodup
              rw [mkeys_msetKV_of_mem _ _ _ _ hg]
              exact hs.1
            · intro e he
              rcases mem_msetKV he with he | he
              · rw [he]
                exact hwf
              · exact hs.2 e he
        · simpa [startGame, hpc, hg, hh, hst] using hs
      · simpa [startGame, hpc, hg, hh] using hs

theorem storeInv_playerReady (cid : Nat) (s : ServerState)
    (hs : StoreInv s) : StoreInv (playerReady cid s).1 := by
  cases hpc : mget s.playerConnections cid with
  | none => simpa [playerReady, hpc] using hs
  | some code =>
    cases hg : mget s.games code with
    | none => simpa [playerReady, hpc, hg] using hs
    | some g =>
      have hwf : GameWF g := hs.2 (code, g) (mget_mem hg)
      cases hrs : g.readyStates with
      | none => simpa [playerReady, hpc, hg, hrs] using hs
      | some rs =>
        have hstep : (playerReady cid s).1
            = { s with games := msetKV s.games code { g with readyStates := some (msetKV rs cid true) } } := by
          simp [playerReady, hpc, hg, hrs]
        rw [hstep]
        constructor
        · show (mkeys (msetKV s.games code _)).Nodup
          rw [mkeys_msetKV_of_mem _ _ _ _ hg]
          exact hs.1
        · intro e he
          rcases mem_msetKV he with he | he
          · rw [he]
            exact hwf
          · exact hs.2 e he

theorem storeInv_leaveGame (cid : Nat) (s : ServerState)
    (hs : StoreInv s) : StoreInv (leaveGame cid s).1 := by
  cases hpc : mget s.playerConnections cid with
  | none => simpa [leaveGame, hpc] using hs
  | some code =>
    cases hg : mget s.games code with
    | none => simpa [leaveGame, hpc, hg] using hs
    | some g =>
      have hwf : GameWF g := hs.2 (code, g) (mget_mem hg)
      cases hp : mget g.players cid with
      | none => simpa [leaveGame, hpc, hg, hp] using hs
      | some p =>
        by_cases hh : g.host = cid
        · have hstep : (leaveGame cid s).1
              = { s with games := mdel s.games code, playerConnections := mdel s.playerConnections cid } := by
            simp [leaveGame, hpc, hg, hp, hh]
          rw [hstep]
          exact ⟨nodup_mkeys_mdel _ hs.1, fun e he => hs.2 e (mem_mdel he)⟩
        · have hstep : (leaveGame cid s).1
              = { s with games := msetKV s.games code { g with players := mdel g.players cid }, playerConnections := mdel s.playerConnections cid } := by
            simp [leaveGame, hpc, hg, hp, hh]
          rw [hstep]
          constructor
          · show (mkeys (msetKV s.games code _)).Nodup
            rw [mkeys_msetKV_of_mem _ _ _ _ hg]
            exact hs.1
          · intro e he
            rcases mem_msetKV he with he | he
            · rw [he]
              refine ⟨nodup_mkeys_mdel _ hwf.1, ?_, ?_⟩
              · show (mdel g.players cid).countP _ = 1
                rw [countP_mdel_of_not _ _ _ ?_]
                · exact hwf.2.1
                · intro q hq hq1
                  by_cases hqh : q.2.isHost = true
                  · exact absurd ((hwf.2.2 q hq hqh).symm.trans hq1) hh
                  · simpa using hqh
              · intro q hq hqh
                exact hwf.2.2 q (mem_mdel hq) hqh
            · exact hs.2 e he

theorem storeInv_removePlayer (cid : Nat) (d : RemoveData) (s : ServerState)
    (hself : d.targetId ≠ some cid)
    (hs : StoreInv s) : StoreInv (removePlayer cid d s).1 := by
  cases hpc : mget s.playerConnections cid with
  | none => simpa [removePlayer, hpc] using hs
  | some code =>
    cases hg : mget s.games code with
    | none => simpa [removePlayer, hpc, hg] using hs
    | some g =>
      have hwf : GameWF g := hs.2 (code, g) (mget_mem hg)
      by_cases hh : g.host = cid
      · cases ht : d.targetId with
        | none => simpa [removePlayer, hpc, hg, hh, ht] using hs
        | some t =>
          have htc : t ≠ cid := by
            intro hcontr
            exact hself (by rw [ht, hcontr])
          cases htp : mget g.players t with
          | none => simpa [removePlayer, hpc, hg, hh, ht, htp] using hs
          | some tp =>
            have hstep : (removePlayer cid d s).1
                = { s with games := msetKV s.games code { g with players := mdel g.players t }, playerConnections := mdel s.playerConnections t } := by
              simp [removePlayer, hpc, hg, hh, ht, htp]
            rw [hstep]
            constructor
            · show (mkeys (msetKV s.games code _)).Nodup
              rw [mkeys_msetKV_of_mem _ _ _ _ hg]
              exact hs.1
            · intro e he
              rcases mem_msetKV he with he | he
              · rw [he]
                refine ⟨nodup_mkeys_mdel _ hwf.1, ?_, ?_⟩
                · show (mdel g.players t).countP _ = 1
                  rw [countP_mdel_of_not _ _ _ ?_]
                  · exact hwf.2.1
                  · intro q hq hq1
                    by_cases hqh : q.2.isHost = true
                    · exact absurd (hq1.symm.trans ((hwf.2.2 q hq hqh).trans hh)) htc
                    · simpa using hqh
                · intro q hq hqh
                  exact hwf.2.2 q (mem_mdel hq) hqh
              · exact hs.2 e he
      · simpa [removePlayer, hpc, hg, hh] using hs

theorem storeInv_onPlayerDisconnect (cid : Nat) (s : ServerState)
    (hs : StoreInv s) : StoreInv (onPlayerDisconnect cid s).1 := by
  cases hpc : mget s.playerConnections cid with
  | none => simpa [onPlayerDisconnect, hpc] using hs
  | some code =>
    cases hg : mget s.games code with
    | none => simpa [onPlayerDisconnect, hpc, hg] using hs
    | some g =>
      have hwf : GameWF g := hs.2 (code, g) (mget_mem hg)
      cases hp : mget g.players cid with
      | none => simpa [onPlayerDisconnect, hpc, hg, hp] using hs
      | some p =>
        have hstep : (onPlayerDisconnect cid s).1
            = { s with games := msetKV s.games code { g with players := msetKV g.players cid { p with connected := false } } } := by
          simp [onPlayerDisconnect, hpc, hg, hp]
        rw [hstep]
        constructor
        · show (mkeys (msetKV s.games code _)).Nodup
          rw [mkeys_msetKV_of_mem _ _ _ _ hg]
          exact hs.1
        · intro e he
          rcases mem_msetKV he with he | he
          · rw [he]
            refine ⟨nodup_mkeys_msetKV _ _ hwf.1, ?_, ?_⟩
            · show (msetKV g.players cid _).countP _ = 1
              have hP : (fun (q : Nat × Player) => q.2.isHost)
                    (cid, { p with connected := false })
                  = (fun (q : Nat × Player) => q.2.isHost) (cid, p) := rfl
              rw [countP_msetKV_agree _ g.players cid { p with connected := false } p hp hP]
              exact hwf.2.1
            · intro q hq hqh
              rcases mem_msetKV hq with hq | hq
              · rw [hq] at hqh ⊢
                exact hwf.2.2 (cid, p) (mget_mem hp) (by simpa using hqh)
              · exact hwf.2.2 q hq hqh
          · exact hs.2 e he

theorem goodStep_storeInv {s s' : ServerState} (h : GoodStep s s')
    (hs : StoreInv s) : StoreInv s' := by
  cases h with
  | create rand fuel token cid d s s' out hc =>
    exact storeInv_createGame rand fuel token cid d s s' out hc hs
  | join token cid d s hre => exact storeInv_joinGame token cid d s hre hs
  | start rand cid s => exact storeInv_startGame rand cid s hs
  | ready cid s => exact storeInv_playerReady cid s hs
  | leave cid s => exact storeInv_leaveGame cid s hs
  | remove cid d s hself => exact storeInv_removePlayer cid d s hself hs
  | disconnect cid s => exact storeInv_onPlayerDisconnect cid s hs

/--
C4 (amended): in every room of every store state reachable from the
fresh server by the seven operations - excluding the two
invariant-breaking inputs, a `removePlayer` whose target is the caller
itself (host self-removal) and a `joinGame` by the host of the room it
names (host self-rejoin) - exactly one player has `isHost = true` and
that player's connection identifier equals the room's `host` field
(and room codes and player keys stay duplicate-free).
-/
theorem C4_host_invariant (s : ServerState) (h : ReachableGood s) :
    StoreInv s := by
  induction h with
  | refl =>
    refine ⟨by simp [initialState, mkeys], ?_⟩
    intro e he
    simp [initialState] at he
  | tail hsteps hstep ih => exact goodStep_storeInv hstep ih

/--
C4 witness: the two-player room reached by a create and a join
satisfies the store invariant.
-/
theorem C4_host_invariant_witness : StoreInv cexS2 := by
  have h1 : GoodStep initialState cexS1 :=
    GoodStep.create cexRand 1 "tok1" 1
      { playerName := some "Alice", eyeWitness := none, bodyGuard := none }
      initialState cexS1
      (((createGame cexRand 1 "tok1" 1
          { playerName := some "Alice", eyeWitness := none, bodyGuard := none }
          initialState).map Prod.snd).getD [])
      (by decide)
  have h2 : GoodStep cexS1 cexS2 :=
    GoodStep.join "tok2" 2
      { playerName := some "Bob", gameCode := some "AAAA" } cexS1 (by decide)
  exact C4_host_invariant cexS2
    (Relation.ReflTransGen.tail
      (Relation.ReflTransGen.tail Relation.ReflTransGen.refl h1) h2)

/--
C4 counterexample: the claim fails on the unrestricted operations - two
reachable states break the invariant.  After the host removes itself via
`removePlayer`, and likewise after the host rejoins its own room under a
fresh name via `joinGame`, room "AAAA" has zero `isHost`-marked players
instead of exactly one.
-/
theorem C4_counterexample :
    ReachableFull cexS3 ∧ (mget cexS3.games "AAAA").map hostCount = some 0 ∧
    ReachableFull cexS4 ∧ (mget cexS4.games "AAAA").map hostCount = some 0 := by
  have h0 : ReachableFull cexS2 :=
    Relation.ReflTransGen.tail (Relation.ReflTransGen.tail
      Relation.ReflTransGen.refl
      (FullStep.create cexRand 1 "tok1" 1
        { playerName := some "Alice", eyeWitness := none, bodyGuard := none }
        initialState cexS1
        (((createGame cexRand 1 "tok1" 1
            { playerName := some "Alice", eyeWitness := none,
              bodyGuard := none }
            initialState).map Prod.snd).getD [])
        (by decide)))
      (FullStep.join "tok2"  2
        { playerName := some "Bob", gameCode := some "AAAA" } cexS1)
  refine ⟨Relation.ReflTransGen.tail h0
      (FullStep.remove 1 { targetId := some 1 } cexS2),
    by decide,
    Relation.ReflTransGen.tail h0
      (FullStep.join "tok3" 1
        { playerName := some "Carol", gameCode := some "AAAA" } cexS2),
    by decide⟩

end GameHappy
